import Mathlib

/-!
# Verification of the geodesic viewer pipeline (`vizualizacija.py`)

Shallow embedding of the trajectory-to-HTML-viewer pipeline of the
Black-Hole-Simulation repository.  Python/numpy floats are modelled as real
numbers (`ℝ`), so `np.isfinite` is identically true in this model; numpy
1-D arrays are Lean lists; a parsed n-dimensional array is a flat row-major
buffer together with its shape; the `ValueError` of Python is `Except.error`;
`sys.exit(1)` / normal termination / an uncaught exception are the three
constructors of an explicit `Outcome` type.

Source of truth: `src/vizualizacija.py`.
-/

namespace Viz

/-! ## Spherical-to-Cartesian transform (`spherical_to_cartesian`, lines 171-175)

the elementwise broadcasting of numpy over equal-length 1-D arrays is modelled by
`List.zipWith3` / `List.zipWith`. -/

/-- Function `spherical_to_cartesian(r, th, ph)` from the source:
`x = r*sin(th)*cos(ph)`, `y = r*sin(th)*sin(ph)`, `z = r*cos(th)`,
elementwise over the three parallel input sequences. -/
noncomputable def spherical_to_cartesian (r th ph : List ℝ) :
    List ℝ × List ℝ × List ℝ :=
  (List.zipWith3 (fun a b c => a * Real.sin b * Real.cos c) r th ph,
   List.zipWith3 (fun a b c => a * Real.sin b * Real.sin c) r th ph,
   List.zipWith (fun a b => a * Real.cos b) r th)

/-! ## Parsed arrays and `load_trajectory` (lines 178-187)

`np.load` / `np.loadtxt` are filesystem reads; the array they produce is
taken as given.  The remaining behaviour of `load_trajectory` — the shape
validation and the `arr[:, :4]` column slice — is embedded here.  An
`NDArray` is the row-major flat data together with the shape. -/

structure NDArray where
  shape : List ℕ
  flat : List ℝ

/-- Field `arr.ndim` of numpy: the number of axes. -/
def NDArray.ndim (a : NDArray) : ℕ := a.shape.length

/-- Entry `arr.shape[0]` (row count of a 2-D array). -/
def NDArray.nrows (a : NDArray) : ℕ := a.shape.getD 0 0

/-- Entry `arr.shape[1]` (column count of a 2-D array). -/
def NDArray.ncols (a : NDArray) : ℕ := a.shape.getD 1 0

/-- Row `i` of a 2-D array in the row-major layout. -/
def NDArray.row (a : NDArray) (i : ℕ) : List ℝ :=
  (a.flat.drop (i * a.ncols)).take a.ncols

/-- The 2-D array whose rows are the given lists (each of length `cols`). -/
def NDArray.ofRows (rows : List (List ℝ)) (cols : ℕ) : NDArray :=
  ⟨[rows.length, cols], rows.flatten⟩

/-- The `ValueError` message raised on a bad shape (line 186). -/
def invalidShapeMsg : String :=
  "Trajectory must be an array with columns [t, r, theta, phi]."

/-- Function `load_trajectory` (lines 178-187), applied to the already-parsed array:
raise `ValueError` unless the array is 2-D with at least 4 columns,
otherwise return `arr[:, :4]` (rows in order, first four columns). -/
def load_trajectory (a : NDArray) : Except String (List (List ℝ)) :=
  if a.ndim ≠ 2 ∨ a.ncols < 4 then
    Except.error invalidShapeMsg
  else
    Except.ok ((List.range a.nrows).map fun i => (a.row i).take 4)

/-- Column `j` of the loaded trajectory (`traj.T` unpacking, line 228). -/
def col (traj : List (List ℝ)) (j : ℕ) : List ℝ :=
  traj.map (fun row => row.getD j 0)

/-! ## CLI arguments and `compute_rs` (lines 190-195, 198-209) -/

/-- The parsed CLI arguments (lines 200-209).  `input_exists` abstracts
`Path(args.input).exists()` and `ext` abstracts `in_path.suffix.lower()`;
the `--open` flag only triggers a browser side effect and is omitted. -/
structure Args where
  input : String
  input_exists : Bool
  ext : String
  format : Option String
  output : String
  tail : ℤ
  rs : Option ℝ
  mass : Option ℝ
  G : Option ℝ
  c : Option ℝ

/-- Function `compute_rs` (lines 190-195): `--rs` wins outright; else `2*G*M/c²`
when mass, G and c are all given; else `None`. -/
noncomputable def compute_rs (args : Args) : Option ℝ :=
  match args.rs with
  | some v => some v
  | none =>
    match args.mass, args.G, args.c with
    | some m, some g, some cc => some (2.0 * g * m / cc ^ 2)
    | _, _, _ => none

/-- Predicate `np.isfinite` on a real number: identically true in the `ℝ` model. -/
def isfinite (_ : ℝ) : Prop := True

/-- Flag `show_horizon = rs is not None and np.isfinite(rs) and rs > 0`
(line 239). -/
def show_horizon (rs : Option ℝ) : Prop :=
  match rs with
  | none => False
  | some v => isfinite v ∧ 0 < v

/-! ## Axis limit (lines 235-236) -/

/-- Maximum `np.max` over a 1-D array.  numpy raises on an empty array; the `0`
in the nil branch is a junk value (the call site guarantees `N ≥ 2`). -/
noncomputable def npMax (l : List ℝ) : ℝ :=
  match l with
  | [] => 0
  | a :: t => t.foldl max a

/-- Value `rmax = np.max(np.abs([x, y, z]))` (line 235): the maximum absolute
value over all three coordinate sequences. -/
noncomputable def rmaxOf (x y z : List ℝ) : ℝ :=
  npMax ((x ++ y ++ z).map (fun v => |v|))

open Classical in
/-- Value `lim = 1.05 * rmax if np.isfinite(rmax) and rmax > 0 else 1.0`
(line 236); `np.isfinite` is identically true in the `ℝ` model. -/
noncomputable def limOf (rmax : ℝ) : ℝ :=
  if 0 < rmax then 1.05 * rmax else 1.0

/-! ## Rendered document values (lines 241-257) -/

/-- The JSON payload `data` (lines 241-249).  `show_horizon` is a `Prop`
because it compares real numbers. -/
structure Payload where
  x : List ℝ
  y : List ℝ
  z : List ℝ
  N : ℕ
  lim : ℝ
  rs : ℝ
  show_horizon : Prop

/-- The keys of the `data` dict literal, in source order (lines 242-248). -/
def payload_keys : List String :=
  ["x", "y", "z", "N", "lim", "rs", "show_horizon"]

/-- The `data` dict (lines 241-249): `rs` is `float(rs)` when resolved and
the float `0.0` otherwise. -/
noncomputable def build_payload (args : Args) (x y z : List ℝ) : Payload :=
  { x := x, y := y, z := z,
    N := x.length,
    lim := limOf (rmaxOf x y z),
    rs := (compute_rs args).getD 0.0,
    show_horizon := show_horizon (compute_rs args) }

/-- The initial tail slider value `min(max(0, args.tail), N - 1)`
(line 253). -/
def tail_initial (tail : ℤ) (N : ℕ) : ℤ :=
  min (max 0 tail) ((N : ℤ) - 1)

/-- Badge text `rs_text` (line 254): the `%.4g`-formatted number when `rs` is
resolved, the em dash otherwise.  The float formatting of Python is abstracted
as the parameter `fmt4g`. -/
def rs_text (fmt4g : ℝ → String) (rs : Option ℝ) : String :=
  match rs with
  | some v => fmt4g v
  | none => "—"

open Classical in
/-- Checkbox state `horizon_checked` (line 255). -/
noncomputable def horizon_checked (args : Args) : String :=
  if show_horizon (compute_rs args) then "checked" else ""

/-- The values substituted into `HTML_TEMPLATE.format(...)` (lines
251-257): the emitted document is this record plus static template text. -/
structure RenderedDoc where
  Nmax : ℕ
  tail : ℤ
  rsText : String
  horizonChecked : String
  data : Payload

/-- The `HTML_TEMPLATE.format(...)` call (lines 251-257). -/
noncomputable def render_document (fmt4g : ℝ → String) (args : Args)
    (x y z : List ℝ) : RenderedDoc :=
  { Nmax := x.length - 1,
    tail := tail_initial args.tail x.length,
    rsText := rs_text fmt4g (compute_rs args),
    horizonChecked := horizon_checked args,
    data := build_payload args x y z }

/-! ## `main` (lines 198-263) -/

/-- Process termination: `sys.exit(1)` with a stderr message, a normal
exit printing to stdout, or an uncaught Python exception (which CPython
reports as a traceback on stderr with exit status 1). -/
inductive Outcome where
  | exit1 (stderr : String)
  | exit0 (stdout : String)
  | uncaught (msg : String)
deriving DecidableEq

/-- Format resolution (lines 216-225): an explicit `--format` wins,
otherwise the lowercased extension must be `.npy` or `.csv`. -/
def resolve_format (args : Args) : Option String :=
  match args.format with
  | some f => some f
  | none =>
    if args.ext = ".npy" then some "npy"
    else if args.ext = ".csv" then some "csv"
    else none

/-- Function `main` (lines 211-261) with the filesystem abstracted: `parsed` is the
array that `np.load`/`np.loadtxt` would produce for the input file, and the
final `print(f"Wrote {out_path.resolve()}")` is modelled with the output
path as given.  A `ValueError` escaping `load_trajectory` is not caught
anywhere in `main`, hence `Outcome.uncaught`. -/
noncomputable def main_outcome (args : Args) (parsed : NDArray) : Outcome :=
  if ¬ args.input_exists then
    Outcome.exit1 ("ERROR: File not found: " ++ args.input)
  else
    match resolve_format args with
    | none =>
      Outcome.exit1 "ERROR: Could not infer format from extension. Use --format npy|csv"
    | some _ =>
      match load_trajectory parsed with
      | Except.error m => Outcome.uncaught m
      | Except.ok traj =>
        let r := col traj 1
        let th := col traj 2
        let ph := col traj 3
        let xyz := spherical_to_cartesian r th ph
        let N := xyz.1.length
        if N < 2 then
          Outcome.exit1 "ERROR: Need at least 2 trajectory samples."
        else
          Outcome.exit0 ("Wrote " ++ args.output)

/-! ## The embedded player (JS inside `HTML_TEMPLATE`, lines 127-161)

The client-side state is the play/pause flag (`timer` being set), the
slider value, and what is drawn (the recent-segment slice bounds and the
marker index).  `setIndex` (lines 128-138) is the single redraw rule used
by scrubbing, tail changes and the play-loop tick (lines 140-161). -/

/-- What a redraw displays: the recent segment is `x.slice(j0, i+1)` and
the marker sits at index `i`. -/
structure Display where
  j0 : ℕ
  i : ℕ
deriving DecidableEq

/-- Redraw rule `setIndex(i)` (lines 128-138): clamp `i` to `[0, N-1]`, then the
segment starts at `max(0, i - tailLen)`. -/
def setIndex (N : ℕ) (tailLen : ℤ) (i : ℤ) : Display :=
  let ic : ℤ := max 0 (min ((N : ℤ) - 1) i)
  ⟨(max 0 (ic - tailLen)).toNat, ic.toNat⟩

/-- Client-side player state: `playing` is `timer !== null`. -/
structure Player where
  playing : Bool
  slider : ℤ
  disp : Display
deriving DecidableEq

/-- Player inputs: the play/pause button, one tick of the interval timer,
and a slider scrub. -/
inductive PEvent where
  | pressPlayPause
  | tick
  | scrub (v : ℤ)
deriving DecidableEq

/-- One step of the embedded player (lines 140-161).  The play button
toggles the timer (lines 148-161); a timer tick advances the slider by one
modulo `N` and redraws through `setIndex` (lines 156-160); a scrub sets the
slider (the range control itself clamps it to `[0, N-1]`) and redraws
through `setIndex` (line 140).  Ticks only occur while the timer is set. -/
def player_step (N : ℕ) (tailLen : ℤ) (s : Player) (e : PEvent) : Player :=
  match e with
  | PEvent.pressPlayPause =>
    if s.playing then { s with playing := false } else { s with playing := true }
  | PEvent.tick =>
    if s.playing then
      let i : ℤ := (1 + s.slider) % (N : ℤ)
      { playing := s.playing, slider := i, disp := setIndex N tailLen i }
    else s
  | PEvent.scrub v =>
    { s with slider := max 0 (min ((N : ℤ) - 1) v), disp := setIndex N tailLen v }

/-! ## Polar recovery (spec §8 round-trip property)

The recovery formulas of the spec, `r = √(x²+y²+z²)`, `θ = atan2(√(x²+y²), z)`,
`φ = atan2(y, x)`, are not part of the source; they are the own
test oracle of the claim.  `atan2(y, x)` is the argument of the complex number
`x + y·i`, valued in `(-π, π]` with `atan2(0, 0) = 0`, exactly the numpy
`arctan2` convention on reals. -/

noncomputable def atan2 (y x : ℝ) : ℝ := Complex.arg (Complex.mk x y)

noncomputable def recover_r (x y z : ℝ) : ℝ := Real.sqrt (x ^ 2 + y ^ 2 + z ^ 2)

noncomputable def recover_theta (x y z : ℝ) : ℝ :=
  atan2 (Real.sqrt (x ^ 2 + y ^ 2)) z

noncomputable def recover_phi (x y : ℝ) : ℝ := atan2 y x

end Viz

/-! ## Helper lemmas -/

namespace Viz

theorem zipWith3_length {α β γ δ : Type} (f : α → β → γ → δ) :
    ∀ (as : List α) (bs : List β) (cs : List γ),
      (List.zipWith3 f as bs cs).length =
        min as.length (min bs.length cs.length)
  | [], _, _ => by simp [List.zipWith3]
  | _ :: _, [], _ => by simp [List.zipWith3]
  | _ :: _, _ :: _, [] => by simp [List.zipWith3]
  | a :: as, b :: bs, c :: cs => by
      simp [List.zipWith3, zipWith3_length f as bs cs]
      omega

theorem zipWith3_getD {α β γ δ : Type} (f : α → β → γ → δ)
    (da : α) (db : β) (dc : γ) (dd : δ) :
    ∀ (as : List α) (bs : List β) (cs : List γ) (i : ℕ),
      i < as.length → i < bs.length → i < cs.length →
      (List.zipWith3 f as bs cs).getD i dd =
        f (as.getD i da) (bs.getD i db) (cs.getD i dc)
  | a :: as, b :: bs, c :: cs, 0, _, _, _ => by
      simp [List.zipWith3]
  | a :: as, b :: bs, c :: cs, i + 1, ha, hb, hc => by
      simpa [List.zipWith3] using
        zipWith3_getD f da db dc dd as bs cs i
          (by simpa using ha) (by simpa using hb) (by simpa using hc)

theorem zipWith_getD {α β δ : Type} (f : α → β → δ)
    (da : α) (db : β) (dd : δ) :
    ∀ (as : List α) (bs : List β) (i : ℕ),
      i < as.length → i < bs.length →
      (List.zipWith f as bs).getD i dd = f (as.getD i da) (bs.getD i db)
  | a :: as, b :: bs, 0, _, _ => by simp
  | a :: as, b :: bs, i + 1, ha, hb => by
      simpa using
        zipWith_getD f da db dd as bs i (by simpa using ha) (by simpa using hb)

end Viz

/-- C1: for parallel inputs r, θ, φ of equal length N, `spherical_to_cartesian`
returns x, y, z each of length N with, for every index i,
`x[i] = r[i]*sin(θ[i])*cos(φ[i])`, `y[i] = r[i]*sin(θ[i])*sin(φ[i])`,
`z[i] = r[i]*cos(θ[i])`. -/
theorem C1_spherical_to_cartesian_correct (r th ph : List ℝ) (N : ℕ)
    (hr : r.length = N) (hth : th.length = N) (hph : ph.length = N) :
    (Viz.spherical_to_cartesian r th ph).1.length = N ∧
    (Viz.spherical_to_cartesian r th ph).2.1.length = N ∧
    (Viz.spherical_to_cartesian r th ph).2.2.length = N ∧
    ∀ i : ℕ, i < N →
      (Viz.spherical_to_cartesian r th ph).1.getD i 0 =
          r.getD i 0 * Real.sin (th.getD i 0) * Real.cos (ph.getD i 0) ∧
      (Viz.spherical_to_cartesian r th ph).2.1.getD i 0 =
          r.getD i 0 * Real.sin (th.getD i 0) * Real.sin (ph.getD i 0) ∧
      (Viz.spherical_to_cartesian r th ph).2.2.getD i 0 =
          r.getD i 0 * Real.cos (th.getD i 0) := by
  refine ⟨?_, ?_, ?_, ?_⟩
  · simp [Viz.spherical_to_cartesian, Viz.zipWith3_length, hr, hth, hph]
  · simp [Viz.spherical_to_cartesian, Viz.zipWith3_length, hr, hth, hph]
  · simp [Viz.spherical_to_cartesian, hr, hth]
  · intro i hi
    refine ⟨?_, ?_, ?_⟩
    · exact Viz.zipWith3_getD _ 0 0 0 0 r th ph i
        (by omega) (by omega) (by omega)
    · exact Viz.zipWith3_getD _ 0 0 0 0 r th ph i
        (by omega) (by omega) (by omega)
    · exact Viz.zipWith_getD _ 0 0 0 r th i (by omega) (by omega)

/-- Witness for C1 at the concrete input r = [1, 2], θ = [0, 0], φ = [0, 0]. -/
theorem C1_spherical_to_cartesian_correct_witness :
    ([(1 : ℝ), 2].length = 2 ∧ [(0 : ℝ), 0].length = 2 ∧
      [(0 : ℝ), 0].length = 2) ∧
    ((Viz.spherical_to_cartesian [1, 2] [0, 0] [0, 0]).1.length = 2 ∧
     (Viz.spherical_to_cartesian [1, 2] [0, 0] [0, 0]).2.1.length = 2 ∧
     (Viz.spherical_to_cartesian [1, 2] [0, 0] [0, 0]).2.2.length = 2 ∧
     ∀ i : ℕ, i < 2 →
      (Viz.spherical_to_cartesian [1, 2] [0, 0] [0, 0]).1.getD i 0 =
          [(1 : ℝ), 2].getD i 0 * Real.sin ([(0 : ℝ), 0].getD i 0) *
            Real.cos ([(0 : ℝ), 0].getD i 0) ∧
      (Viz.spherical_to_cartesian [1, 2] [0, 0] [0, 0]).2.1.getD i 0 =
          [(1 : ℝ), 2].getD i 0 * Real.sin ([(0 : ℝ), 0].getD i 0) *
            Real.sin ([(0 : ℝ), 0].getD i 0) ∧
      (Viz.spherical_to_cartesian [1, 2] [0, 0] [0, 0]).2.2.getD i 0 =
          [(1 : ℝ), 2].getD i 0 * Real.cos ([(0 : ℝ), 0].getD i 0)) :=
  ⟨⟨rfl, rfl, rfl⟩, C1_spherical_to_cartesian_correct [1, 2] [0, 0] [0, 0] 2 rfl rfl rfl⟩

namespace Viz

theorem flatten_drop_take (cols : ℕ) :
    ∀ (rows : List (List ℝ)), (∀ row ∈ rows, row.length = cols) →
      ∀ i, i < rows.length →
        (rows.flatten.drop (i * cols)).take cols = rows.getD i []
  | [], _, i, hi => by simp at hi
  | r :: rs, h, 0, _ => by
      have hr : r.length = cols := h r (by simp)
      simp [List.take_append_eq_append_take, hr]
  | r :: rs, h, i + 1, hi => by
      have hr : r.length = cols := h r (by simp)
      have hrest : ∀ row ∈ rs, row.length = cols := fun row hrow => h row (by simp [hrow])
      have hlen : r.length ≤ (i + 1) * cols := by
        rw [hr]; exact Nat.le_mul_of_pos_left cols (Nat.succ_pos i)
      have hdrop : ((r :: rs).flatten.drop ((i + 1) * cols)) =
          rs.flatten.drop (i * cols) := by
        have : (i + 1) * cols = r.length + i * cols := by rw [hr]; ring
        rw [List.flatten_cons, this, ← List.drop_drop, List.drop_left]
      rw [hdrop]
      simpa using flatten_drop_take cols rs hrest i (by simpa using hi)

theorem range_map_getD {α β : Type} (f : α → β) (d : α) :
    ∀ l : List α, (List.range l.length).map (fun i => f (l.getD i d)) = l.map f
  | [] => by simp
  | a :: t => by
      rw [List.length_cons, List.range_succ_eq_map]
      simp only [List.map_cons, List.map_map]
      refine congrArg₂ _ (by simp) ?_
      rw [show ((fun i => f ((a :: t).getD i d)) ∘ Nat.succ) =
          (fun i => f (t.getD i d)) from funext fun i => by simp]
      exact range_map_getD f d t

theorem le_foldl_max (l : List ℝ) : ∀ a : ℝ, a ≤ l.foldl max a := by
  induction l with
  | nil => intro a; simp
  | cons b t ih =>
      intro a
      calc a ≤ max a b := le_max_left a b
        _ ≤ t.foldl max (max a b) := ih (max a b)

theorem mem_le_foldl_max (l : List ℝ) : ∀ (a v : ℝ), v ∈ l → v ≤ l.foldl max a := by
  induction l with
  | nil => intro a v hv; simp at hv
  | cons b t ih =>
      intro a v hv
      rcases List.mem_cons.mp hv with h | h
      · subst h
        calc v ≤ max a v := le_max_right a v
          _ ≤ t.foldl max (max a v) := le_foldl_max t (max a v)
      · exact ih (max a b) v h

theorem foldl_max_le (l : List ℝ) : ∀ (a b : ℝ), a ≤ b → (∀ v ∈ l, v ≤ b) →
    l.foldl max a ≤ b := by
  induction l with
  | nil => intro a b hab _; simpa using hab
  | cons c t ih =>
      intro a b hab h
      simp only [List.foldl_cons]
      exact ih (max a c) b (max_le hab (h c (by simp)))
        (fun v hv => h v (by simp [hv]))

theorem mem_le_npMax (l : List ℝ) (v : ℝ) (hv : v ∈ l) : v ≤ npMax l := by
  cases l with
  | nil => simp at hv
  | cons a t =>
      rcases List.mem_cons.mp hv with h | h
      · subst h; exact le_foldl_max t v
      · exact mem_le_foldl_max t a v h

theorem npMax_le (l : List ℝ) (b : ℝ) (h0 : 0 ≤ b) (h : ∀ v ∈ l, v ≤ b) :
    npMax l ≤ b := by
  cases l with
  | nil => simpa [npMax] using h0
  | cons a t => exact foldl_max_le t a b (h a (by simp)) (fun v hv => h v (by simp [hv]))

end Viz

/-- C2: `load_trajectory` fails with the `InvalidShape` value error iff the
parsed array is not exactly 2-D or has fewer than 4 columns; on success it
returns exactly the first 4 columns, rows in original order. -/
theorem C2_load_trajectory_spec :
    (∀ a : Viz.NDArray,
      Viz.load_trajectory a = Except.error Viz.invalidShapeMsg ↔
        (a.ndim ≠ 2 ∨ a.ncols < 4)) ∧
    (∀ (rows : List (List ℝ)) (cols : ℕ),
      (∀ row ∈ rows, row.length = cols) → 4 ≤ cols →
        Viz.load_trajectory (Viz.NDArray.ofRows rows cols) =
          Except.ok (rows.map (fun row => row.take 4))) := by
  constructor
  · intro a
    by_cases h : a.ndim ≠ 2 ∨ a.ncols < 4
    · simp [Viz.load_trajectory, h]
    · simp [Viz.load_trajectory, h]
  · intro rows cols hrect hcols
    have hndim : (Viz.NDArray.ofRows rows cols).ndim = 2 := rfl
    have hncols : (Viz.NDArray.ofRows rows cols).ncols = cols := rfl
    have hnrows : (Viz.NDArray.ofRows rows cols).nrows = rows.length := rfl
    have hcond : ¬ ((Viz.NDArray.ofRows rows cols).ndim ≠ 2 ∨
        (Viz.NDArray.ofRows rows cols).ncols < 4) := by
      simp [hndim, hncols]; omega
    rw [Viz.load_trajectory, if_neg hcond]
    refine congrArg Except.ok ?_
    rw [hnrows]
    have hpt : ∀ i ∈ List.range rows.length,
        ((Viz.NDArray.ofRows rows cols).row i).take 4 =
          (rows.getD i []).take 4 := by
      intro i hi
      have hi' : i < rows.length := List.mem_range.mp hi
      rw [Viz.NDArray.row, hncols]
      rw [show (Viz.NDArray.ofRows rows cols).flat = rows.flatten from rfl]
      rw [Viz.flatten_drop_take cols rows hrect i hi']
    rw [List.map_congr_left hpt]
    exact Viz.range_map_getD (fun row => row.take 4) [] rows

/-- Witness for C2: a 1-D 3-element array is rejected with the
`InvalidShape` error, while a 2-row table with 6 columns loads as its
first 4 columns. -/
theorem C2_load_trajectory_spec_witness :
    (Viz.load_trajectory ⟨[3], [1, 2, 3]⟩ = Except.error Viz.invalidShapeMsg) ∧
    ((∀ row ∈ [[(0 : ℝ), 1, 2, 3, 4, 5], [6, 7, 8, 9, 10, 11]], row.length = 6) ∧
      Viz.load_trajectory
          (Viz.NDArray.ofRows [[(0 : ℝ), 1, 2, 3, 4, 5], [6, 7, 8, 9, 10, 11]] 6) =
        Except.ok [[(0 : ℝ), 1, 2, 3], [6, 7, 8, 9]]) :=
  ⟨(C2_load_trajectory_spec.1 ⟨[3], [1, 2, 3]⟩).mpr (by simp [Viz.NDArray.ndim]),
   ⟨by simp, by
      have := C2_load_trajectory_spec.2
          [[(0 : ℝ), 1, 2, 3, 4, 5], [6, 7, 8, 9, 10, 11]] 6 (by simp) (by norm_num)
      simpa using this⟩⟩

/-- C4: the axis limit is `1.05 * rmax` when the maximum absolute
coordinate `rmax` is positive and `1.0` when it is zero or negative
(non-finite values do not exist in the `ℝ` model); consequently it
dominates every absolute coordinate and equals `1.0` when all coordinates
are zero. -/
theorem C4_axis_limit (x y z : List ℝ) :
    (0 < Viz.rmaxOf x y z →
      Viz.limOf (Viz.rmaxOf x y z) = 1.05 * Viz.rmaxOf x y z) ∧
    (Viz.rmaxOf x y z ≤ 0 → Viz.limOf (Viz.rmaxOf x y z) = 1.0) ∧
    (∀ v, (v ∈ x ∨ v ∈ y ∨ v ∈ z) → |v| ≤ Viz.limOf (Viz.rmaxOf x y z)) ∧
    ((∀ v, (v ∈ x ∨ v ∈ y ∨ v ∈ z) → v = 0) →
      Viz.limOf (Viz.rmaxOf x y z) = 1.0) := by
  refine ⟨?_, ?_, ?_, ?_⟩
  · intro h; rw [Viz.limOf, if_pos h]
  · intro h; rw [Viz.limOf, if_neg (by linarith)]
  · intro v hv
    have hmem : |v| ∈ (x ++ y ++ z).map (fun w => |w|) := by
      refine List.mem_map.mpr ⟨v, ?_, rfl⟩
      rcases hv with h | h | h <;> simp [h]
    have hle : |v| ≤ Viz.rmaxOf x y z := Viz.mem_le_npMax _ _ hmem
    by_cases h : 0 < Viz.rmaxOf x y z
    · rw [Viz.limOf, if_pos h]; nlinarith
    · rw [Viz.limOf, if_neg h]
      have h0 : |v| ≤ 0 := le_trans hle (not_lt.mp h)
      have h1 := abs_nonneg v
      have hv0 : |v| = 0 := le_antisymm h0 h1
      rw [hv0]; norm_num
  · intro hall
    have hle : Viz.rmaxOf x y z ≤ 0 := by
      refine Viz.npMax_le _ 0 le_rfl ?_
      intro w hw
      rcases List.mem_map.mp hw with ⟨u, hu, rfl⟩
      have hu0 : u = 0 := by
        rcases List.mem_append.mp hu with h | h
        · rcases List.mem_append.mp h with h1 | h1
          · exact hall u (Or.inl h1)
          · exact hall u (Or.inr (Or.inl h1))
        · exact hall u (Or.inr (Or.inr h))
      simp [hu0]
    rw [Viz.limOf, if_neg (by linarith)]

/-- Witness for C4 at x = [3], y = [0], z = [0] (maximum 3, limit 3.15)
and at the all-zero input x = y = z = [0] (limit 1.0). -/
theorem C4_axis_limit_witness :
    (0 < Viz.rmaxOf [3] [0] [0] ∧
      Viz.limOf (Viz.rmaxOf [3] [0] [0]) = 1.05 * Viz.rmaxOf [3] [0] [0]) ∧
    ((∀ v, (v ∈ [(0 : ℝ)] ∨ v ∈ [(0 : ℝ)] ∨ v ∈ [(0 : ℝ)]) → v = 0) ∧
      Viz.limOf (Viz.rmaxOf [0] [0] [0]) = 1.0) := by
  have h3 : Viz.rmaxOf [3] [0] [0] = 3 := by
    simp [Viz.rmaxOf, Viz.npMax]
  refine ⟨⟨by rw [h3]; norm_num, (C4_axis_limit [3] [0] [0]).1 (by rw [h3]; norm_num)⟩,
    ⟨by intro v hv; rcases hv with h | h | h <;> simpa using h,
     (C4_axis_limit [0] [0] [0]).2.2.2
       (by intro v hv; rcases hv with h | h | h <;> simpa using h)⟩⟩

/-- C5: `--rs` overrides; else `r_s = 2*G*M/c²` when mass, G, c are all
given (so mass = G = c = 1 gives 2.0); else unset.  The horizon visibility
flag holds iff the resolved radius exists, is finite, and is strictly
positive, so `--rs 0` turns visibility off. -/
theorem C5_horizon_radius (args : Viz.Args) :
    (∀ v : ℝ, args.rs = some v → Viz.compute_rs args = some v) ∧
    (args.rs = none →
      ∀ m g cc : ℝ, args.mass = some m → args.G = some g → args.c = some cc →
        Viz.compute_rs args = some (2.0 * g * m / cc ^ 2)) ∧
    (args.rs = none → (args.mass = none ∨ args.G = none ∨ args.c = none) →
      Viz.compute_rs args = none) ∧
    (args.rs = none → args.mass = some 1 → args.G = some 1 → args.c = some 1 →
      Viz.compute_rs args = some 2.0) ∧
    (Viz.show_horizon (Viz.compute_rs args) ↔
      ∃ v : ℝ, Viz.compute_rs args = some v ∧ Viz.isfinite v ∧ 0 < v) ∧
    (args.rs = some 0 → ¬ Viz.show_horizon (Viz.compute_rs args)) := by
  refine ⟨?_, ?_, ?_, ?_, ?_, ?_⟩
  · intro v hv
    simp [Viz.compute_rs, hv]
  · intro hrs m g cc hm hg hc
    simp [Viz.compute_rs, hrs, hm, hg, hc]
  · intro hrs hnone
    rcases hnone with h | h | h <;> simp [Viz.compute_rs, hrs, h]
  · intro hrs hm hg hc
    simp [Viz.compute_rs, hrs, hm, hg, hc]
  · cases hrs : Viz.compute_rs args with
    | none => simp [Viz.show_horizon]
    | some v => simp [Viz.show_horizon, Viz.isfinite]
  · intro hv
    simp [Viz.compute_rs, hv, Viz.show_horizon, Viz.isfinite]

/-- Witness for C5 at `--rs 3` (resolved radius 3) and at
`--rs 0` (visibility off). -/
theorem C5_horizon_radius_witness :
    (Viz.Args.rs ⟨"a.csv", true, ".csv", none, "o.html", 800, some 3, none, none, none⟩ =
        some 3 ∧
      Viz.compute_rs ⟨"a.csv", true, ".csv", none, "o.html", 800, some 3, none, none, none⟩ =
        some 3) ∧
    (Viz.Args.rs ⟨"a.csv", true, ".csv", none, "o.html", 800, some 0, none, none, none⟩ =
        some 0 ∧
      ¬ Viz.show_horizon (Viz.compute_rs
        ⟨"a.csv", true, ".csv", none, "o.html", 800, some 0, none, none, none⟩)) :=
  ⟨⟨rfl, (C5_horizon_radius _).1 3 rfl⟩,
   ⟨rfl, (C5_horizon_radius _).2.2.2.2.2 rfl⟩⟩

/-- C6: the initial tail value embedded in the emitted document is the
CLI-requested value clamped into [0, N-1]; a request of -5 gives 0 and a
request of N+100 gives N-1. -/
theorem C6_tail_clamped (fmt4g : ℝ → String) (args : Viz.Args)
    (x y z : List ℝ) (N : ℕ) (hN : x.length = N) (h2 : 2 ≤ N) :
    (Viz.render_document fmt4g args x y z).tail =
        min (max 0 args.tail) ((N : ℤ) - 1) ∧
    (0 ≤ (Viz.render_document fmt4g args x y z).tail ∧
      (Viz.render_document fmt4g args x y z).tail ≤ (N : ℤ) - 1) ∧
    (args.tail = -5 → (Viz.render_document fmt4g args x y z).tail = 0) ∧
    (args.tail = (N : ℤ) + 100 →
      (Viz.render_document fmt4g args x y z).tail = (N : ℤ) - 1) := by
  have hdef : (Viz.render_document fmt4g args x y z).tail =
      min (max 0 args.tail) ((N : ℤ) - 1) := by
    simp [Viz.render_document, Viz.tail_initial, hN]
  refine ⟨hdef, ⟨?_, ?_⟩, ?_, ?_⟩
  · rw [hdef]; omega
  · rw [hdef]; omega
  · intro h; rw [hdef, h]; omega
  · intro h; rw [hdef, h]; omega

/-- Witness for C6 at N = 2 with requested tails -5 and N+100 = 102. -/
theorem C6_tail_clamped_witness :
    (([(0 : ℝ), 1].length = 2 ∧ 2 ≤ 2) ∧
      (Viz.render_document (fun _ => "")
        ⟨"a.csv", true, ".csv", none, "o.html", -5, none, none, none, none⟩
        [0, 1] [0, 0] [0, 0]).tail = 0) ∧
    ((Viz.render_document (fun _ => "")
        ⟨"a.csv", true, ".csv", none, "o.html", 102, none, none, none, none⟩
        [0, 1] [0, 0] [0, 0]).tail = (2 : ℤ) - 1) :=
  ⟨⟨⟨rfl, by norm_num⟩,
    (C6_tail_clamped (fun _ => "") _ [0, 1] [0, 0] [0, 0] 2 rfl (by norm_num)).2.2.1 rfl⟩,
   (C6_tail_clamped (fun _ => "") _ [0, 1] [0, 0] [0, 0] 2 rfl (by norm_num)).2.2.2
     (by norm_num)⟩

/-- C9: in the embedded player, pressing play-pause while Paused starts
ticking; each tick advances the displayed index by exactly 1 modulo N
(wrapping from N-1 to 0) and redraws exactly as a scrub to that index
would; pressing play-pause while Playing stops ticking and leaves the
index unchanged; the displayed index stays within [0, N-1]. -/
theorem C9_player_state_machine (N : ℕ) (tailLen : ℤ) (s : Viz.Player)
    (hN : 2 ≤ N) (hs : 0 ≤ s.slider ∧ s.slider ≤ (N : ℤ) - 1) :
    (s.playing = false →
      Viz.player_step N tailLen s Viz.PEvent.pressPlayPause =
        { s with playing := true }) ∧
    (s.playing = true →
      Viz.player_step N tailLen s Viz.PEvent.pressPlayPause =
        { s with playing := false }) ∧
    (s.playing = true →
      (Viz.player_step N tailLen s Viz.PEvent.tick).slider =
          (s.slider + 1) % (N : ℤ) ∧
      (s.slider = (N : ℤ) - 1 →
        (Viz.player_step N tailLen s Viz.PEvent.tick).slider = 0) ∧
      (Viz.player_step N tailLen s Viz.PEvent.tick).disp =
        (Viz.player_step N tailLen s
          (Viz.PEvent.scrub ((1 + s.slider) % (N : ℤ)))).disp) ∧
    (s.playing = false →
      Viz.player_step N tailLen s Viz.PEvent.tick = s) ∧
    (∀ e : Viz.PEvent,
      0 ≤ (Viz.player_step N tailLen s e).slider ∧
      (Viz.player_step N tailLen s e).slider ≤ (N : ℤ) - 1) := by
  refine ⟨?_, ?_, ?_, ?_, ?_⟩
  · intro h; simp [Viz.player_step, h]
  · intro h; simp [Viz.player_step, h]
  · intro h
    refine ⟨by simp [Viz.player_step, h]; ring_nf, ?_, ?_⟩
    · intro hlast
      simp [Viz.player_step, h, hlast]
    · simp [Viz.player_step, h]
  · intro h; simp [Viz.player_step, h]
  · intro e
    cases e with
    | pressPlayPause =>
        by_cases h : s.playing <;> simp [Viz.player_step, h] <;> exact hs
    | tick =>
        by_cases h : s.playing
        · simp only [Viz.player_step, h, if_true]
          constructor
          · exact Int.emod_nonneg _ (by omega)
          · have := Int.emod_lt_of_pos (1 + s.slider) (show (0 : ℤ) < (N : ℤ) by omega)
            omega
        · simp [Viz.player_step, h]; exact hs
    | scrub v =>
        simp [Viz.player_step]
        omega

/-- Witness for C9: N = 3, tail 1, paused at index 2; pressing play
starts playing, and a tick from the playing state at index 2 wraps to 0. -/
theorem C9_player_state_machine_witness :
    (2 ≤ 3 ∧ (0 ≤ (2 : ℤ) ∧ (2 : ℤ) ≤ (3 : ℤ) - 1)) ∧
    (Viz.player_step 3 1 ⟨false, 2, ⟨1, 2⟩⟩ Viz.PEvent.pressPlayPause =
        { playing := true, slider := 2, disp := ⟨1, 2⟩ } ∧
      ((2 : ℤ) = (3 : ℤ) - 1 →
        (Viz.player_step 3 1 ⟨true, 2, ⟨1, 2⟩⟩ Viz.PEvent.tick).slider = 0)) :=
  ⟨⟨by norm_num, by norm_num⟩,
   ⟨(C9_player_state_machine 3 1 ⟨false, 2, ⟨1, 2⟩⟩ (by norm_num)
      (by norm_num)).1 rfl,
    ((C9_player_state_machine 3 1 ⟨true, 2, ⟨1, 2⟩⟩ (by norm_num)
      (by norm_num)).2.2.1 rfl).2.1⟩⟩

/-- C10: when the horizon radius is unresolved the serialized payload still
carries `rs` as the float 0.0 with `show_horizon` false and the badge shows
the em dash; the `rs` key is present in every emitted payload. -/
theorem C10_unresolved_rs_payload (fmt4g : ℝ → String) (args : Viz.Args)
    (x y z : List ℝ) (h : Viz.compute_rs args = none) :
    (Viz.build_payload args x y z).rs = 0.0 ∧
    ¬ (Viz.build_payload args x y z).show_horizon ∧
    (Viz.render_document fmt4g args x y z).rsText = "—" ∧
    (∀ args2 : Viz.Args, ∀ x2 y2 z2 : List ℝ,
      (Viz.build_payload args2 x2 y2 z2).rs = (Viz.compute_rs args2).getD 0.0) ∧
    "rs" ∈ Viz.payload_keys := by
  refine ⟨?_, ?_, ?_, ?_, ?_⟩
  · simp [Viz.build_payload, h]
  · simp [Viz.build_payload, h, Viz.show_horizon]
  · simp [Viz.render_document, Viz.rs_text, h]
  · intro args2 x2 y2 z2; rfl
  · simp [Viz.payload_keys]

/-- Witness for C10 with no `--rs` and only `--mass 1 --G 1` given (no
`--c`), so the radius is unresolved. -/
theorem C10_unresolved_rs_payload_witness :
    Viz.compute_rs ⟨"a.csv", true, ".csv", none, "o.html", 800,
        none, some 1, some 1, none⟩ = none ∧
    ((Viz.build_payload ⟨"a.csv", true, ".csv", none, "o.html", 800,
        none, some 1, some 1, none⟩ [0, 1] [0, 0] [0, 0]).rs = 0.0 ∧
     ¬ (Viz.build_payload ⟨"a.csv", true, ".csv", none, "o.html", 800,
        none, some 1, some 1, none⟩ [0, 1] [0, 0] [0, 0]).show_horizon ∧
     (Viz.render_document (fun _ => "") ⟨"a.csv", true, ".csv", none, "o.html", 800,
        none, some 1, some 1, none⟩ [0, 1] [0, 0] [0, 0]).rsText = "—" ∧
     (∀ args2 : Viz.Args, ∀ x2 y2 z2 : List ℝ,
        (Viz.build_payload args2 x2 y2 z2).rs = (Viz.compute_rs args2).getD 0.0) ∧
     "rs" ∈ Viz.payload_keys) :=
  have h : Viz.compute_rs ⟨"a.csv", true, ".csv", none, "o.html", 800,
      none, some 1, some 1, none⟩ = none := rfl
  ⟨h, C10_unresolved_rs_payload (fun _ => "") _ [0, 1] [0, 0] [0, 0] h⟩

namespace Viz

theorem s2c_first_length (traj : List (List ℝ)) :
    (spherical_to_cartesian (col traj 1) (col traj 2) (col traj 3)).1.length =
      traj.length := by
  simp [spherical_to_cartesian, zipWith3_length, col]

theorem load_trajectory_ok_iff (a : NDArray) :
    ¬ (a.ndim ≠ 2 ∨ a.ncols < 4) →
      load_trajectory a =
        Except.ok ((List.range a.nrows).map fun i => (a.row i).take 4) := by
  intro h
  simp [load_trajectory, h]

end Viz

/-- C3 (amended): `main` exits with code 1 and a stderr message exactly
when the input is missing, or no format can be resolved, or the trajectory
loads with fewer than 2 samples; it exits with code 0 printing the output
path exactly when the input exists, the format resolves, the array
validates (2-D, ≥ 4 columns) and has at least 2 rows; and when the array
fails validation the `ValueError` escapes `main` uncaught (CPython then
terminates with a traceback and a nonzero status, not the clean
exit-0 path the original claim states). -/
theorem C3_main_exit_codes (args : Viz.Args) (parsed : Viz.NDArray) :
    ((∃ m, Viz.main_outcome args parsed = Viz.Outcome.exit1 m) ↔
      (args.input_exists = false ∨
       (args.input_exists = true ∧ Viz.resolve_format args = none) ∨
       (args.input_exists = true ∧ Viz.resolve_format args ≠ none ∧
         parsed.ndim = 2 ∧ 4 ≤ parsed.ncols ∧ parsed.nrows < 2))) ∧
    (Viz.main_outcome args parsed = Viz.Outcome.exit0 ("Wrote " ++ args.output) ↔
      (args.input_exists = true ∧ Viz.resolve_format args ≠ none ∧
        parsed.ndim = 2 ∧ 4 ≤ parsed.ncols ∧ 2 ≤ parsed.nrows)) ∧
    ((∃ m, Viz.main_outcome args parsed = Viz.Outcome.uncaught m) ↔
      (args.input_exists = true ∧ Viz.resolve_format args ≠ none ∧
        ¬ (parsed.ndim = 2 ∧ 4 ≤ parsed.ncols))) := by
  by_cases he : args.input_exists
  · cases hf : Viz.resolve_format args with
    | none =>
        have hout : Viz.main_outcome args parsed =
            Viz.Outcome.exit1
              "ERROR: Could not infer format from extension. Use --format npy|csv" := by
          simp [Viz.main_outcome, he, hf]
        refine ⟨?_, ?_, ?_⟩
        · simp [hout, he, hf]
        · simp [hout, he, hf]
        · simp [hout, he, hf]
    | some f =>
        by_cases hv : parsed.ndim ≠ 2 ∨ parsed.ncols < 4
        · have hload : Viz.load_trajectory parsed =
              Except.error Viz.invalidShapeMsg := by
            simp [Viz.load_trajectory, hv]
          have hout : Viz.main_outcome args parsed =
              Viz.Outcome.uncaught Viz.invalidShapeMsg := by
            simp [Viz.main_outcome, he, hf, hload]
          refine ⟨?_, ?_, ?_⟩
          · simp [hout, he, hf]
            omega
          · simp [hout, he, hf]
            omega
          · simp [hout, he, hf]
            omega
        · have hv2 : parsed.ndim = 2 ∧ 4 ≤ parsed.ncols := by
            push_neg at hv
            omega
          have hload := Viz.load_trajectory_ok_iff parsed hv
          have hlen : (Viz.spherical_to_cartesian
              (Viz.col ((List.range parsed.nrows).map fun i => (parsed.row i).take 4) 1)
              (Viz.col ((List.range parsed.nrows).map fun i => (parsed.row i).take 4) 2)
              (Viz.col ((List.range parsed.nrows).map fun i => (parsed.row i).take 4) 3)).1.length =
              parsed.nrows := by
            rw [Viz.s2c_first_length]
            simp
          by_cases hn : parsed.nrows < 2
          · have hout : Viz.main_outcome args parsed =
                Viz.Outcome.exit1 "ERROR: Need at least 2 trajectory samples." := by
              simp only [Viz.main_outcome, he, hf, hload]
              simp only [hlen]
              simp [hn]
            refine ⟨?_, ?_, ?_⟩
            · simp [hout, he, hf]
              omega
            · simp [hout, he, hf]
              omega
            · simp [hout, he, hf]
              exact hv2
          · have hout : Viz.main_outcome args parsed =
                Viz.Outcome.exit0 ("Wrote " ++ args.output) := by
              simp only [Viz.main_outcome, he, hf, hload]
              simp only [hlen]
              simp [hn]
            refine ⟨?_, ?_, ?_⟩
            · simp [hout, he, hf]
              omega
            · simp [hout, he, hf]
              omega
            · simp [hout, he, hf]
              omega
  · have hout : Viz.main_outcome args parsed =
        Viz.Outcome.exit1 ("ERROR: File not found: " ++ args.input) := by
      simp [Viz.main_outcome, he]
    refine ⟨?_, ?_, ?_⟩
    · simp [hout, he]
    · simp [hout, he]
    · simp [hout, he]

/-- Counterexample for C3 as stated: the input file exists with a `.csv`
extension and the parsed table has 2 rows but only 3 columns, so none of
the three exit-1 conditions of the claim hold, yet the process does not exit
with code 0: the `InvalidShape` `ValueError` escapes `main` uncaught. -/
theorem C3_counterexample :
    Viz.main_outcome
        ⟨"traj.csv", true, ".csv", none, "geodesic_viewer.html", 800,
          none, none, none, none⟩
        ⟨[2, 3], [0, 1, 2, 3, 4, 5]⟩ =
      Viz.Outcome.uncaught Viz.invalidShapeMsg ∧
    (Viz.Args.input_exists
      ⟨"traj.csv", true, ".csv", none, "geodesic_viewer.html", 800,
        none, none, none, none⟩ = true) ∧
    Viz.resolve_format
      ⟨"traj.csv", true, ".csv", none, "geodesic_viewer.html", 800,
        none, none, none, none⟩ = some "csv" ∧
    Viz.Outcome.uncaught Viz.invalidShapeMsg ≠
      Viz.Outcome.exit0 ("Wrote " ++ "geodesic_viewer.html") := by
  refine ⟨?_, rfl, by decide, ?_⟩
  · have hv : Viz.load_trajectory ⟨[2, 3], [0, 1, 2, 3, 4, 5]⟩ =
        Except.error Viz.invalidShapeMsg := by
      simp [Viz.load_trajectory, Viz.NDArray.ndim, Viz.NDArray.ncols]
    simp [Viz.main_outcome, Viz.resolve_format, hv]
  · intro h
    exact Viz.Outcome.noConfusion h

/-- Witness for C3 (amended) on the happy path: an existing `.csv` input
whose parsed array is 2×4 yields exit code 0 with the output path. -/
theorem C3_main_exit_codes_witness :
    Viz.main_outcome
        ⟨"traj.csv", true, ".csv", none, "out.html", 800, none, none, none, none⟩
        ⟨[2, 4], [0, 1, 0, 0, 1, 2, 1, 0]⟩ =
      Viz.Outcome.exit0 ("Wrote " ++ "out.html") :=
  (C3_main_exit_codes
      ⟨"traj.csv", true, ".csv", none, "out.html", 800, none, none, none, none⟩
      ⟨[2, 4], [0, 1, 0, 0, 1, 2, 1, 0]⟩).2.1.mpr
    ⟨rfl, by decide, rfl, by decide, by decide⟩

namespace Viz

theorem s2c_single (r θ φ : ℝ) :
    spherical_to_cartesian [r] [θ] [φ] =
      ([r * Real.sin θ * Real.cos φ], [r * Real.sin θ * Real.sin φ],
       [r * Real.cos θ]) := rfl

theorem atan2_cos_sin (R φ : ℝ) (hR : 0 < R) (h1 : -Real.pi < φ)
    (h2 : φ ≤ Real.pi) : atan2 (R * Real.sin φ) (R * Real.cos φ) = φ := by
  have hz : Complex.mk (R * Real.cos φ) (R * Real.sin φ) =
      (R : ℂ) * (Complex.cos (φ : ℂ) + Complex.sin (φ : ℂ) * Complex.I) := by
    apply Complex.ext <;>
      simp [Complex.mul_re, Complex.mul_im, Complex.cos_ofReal_re,
        Complex.cos_ofReal_im, Complex.sin_ofReal_re, Complex.sin_ofReal_im]
  rw [atan2, hz, Complex.arg_real_mul _ hR,
    Complex.arg_cos_add_sin_mul_I ⟨h1, h2⟩]

end Viz

/-- C8 (amended): for r > 0 and θ strictly inside (0, π), applying
`spherical_to_cartesian` and then the recovery formulas reproduces r and θ
exactly, and reproduces φ modulo 2π: the recovered azimuth is φ itself for
φ ∈ [0, π] and φ − 2π for φ ∈ (π, 2π), since atan2 is valued in (−π, π].
(At r = 0 or θ ∈ {0, π} the azimuth degenerates to atan2(0,0) = 0.) -/
theorem C8_roundtrip_amended (r θ φ : ℝ) (hr : 0 < r) (hθ1 : 0 < θ)
    (hθ2 : θ < Real.pi) (hφ1 : 0 ≤ φ) (hφ2 : φ < 2 * Real.pi) :
    Viz.recover_r ((Viz.spherical_to_cartesian [r] [θ] [φ]).1.getD 0 0)
        ((Viz.spherical_to_cartesian [r] [θ] [φ]).2.1.getD 0 0)
        ((Viz.spherical_to_cartesian [r] [θ] [φ]).2.2.getD 0 0) = r ∧
    Viz.recover_theta ((Viz.spherical_to_cartesian [r] [θ] [φ]).1.getD 0 0)
        ((Viz.spherical_to_cartesian [r] [θ] [φ]).2.1.getD 0 0)
        ((Viz.spherical_to_cartesian [r] [θ] [φ]).2.2.getD 0 0) = θ ∧
    Viz.recover_phi ((Viz.spherical_to_cartesian [r] [θ] [φ]).1.getD 0 0)
        ((Viz.spherical_to_cartesian [r] [θ] [φ]).2.1.getD 0 0) =
      (if φ ≤ Real.pi then φ else φ - 2 * Real.pi) := by
  rw [Viz.s2c_single]
  simp only [List.getD_cons_zero]
  have hπ := Real.pi_pos
  have hsθ : 0 < Real.sin θ := Real.sin_pos_of_pos_of_lt_pi hθ1 hθ2
  have h2φ := Real.sin_sq_add_cos_sq φ
  have h2θ := Real.sin_sq_add_cos_sq θ
  refine ⟨?_, ?_, ?_⟩
  · rw [Viz.recover_r,
      show (r * Real.sin θ * Real.cos φ) ^ 2 + (r * Real.sin θ * Real.sin φ) ^ 2 +
          (r * Real.cos θ) ^ 2 = r ^ 2 from by
        linear_combination (r ^ 2 * Real.sin θ ^ 2) * h2φ + r ^ 2 * h2θ]
    exact Real.sqrt_sq hr.le
  · rw [Viz.recover_theta,
      show (r * Real.sin θ * Real.cos φ) ^ 2 + (r * Real.sin θ * Real.sin φ) ^ 2 =
          (r * Real.sin θ) ^ 2 from by
        linear_combination (r ^ 2 * Real.sin θ ^ 2) * h2φ,
      Real.sqrt_sq (by positivity)]
    exact Viz.atan2_cos_sin r θ hr (by linarith) hθ2.le
  · rw [Viz.recover_phi]
    by_cases hφπ : φ ≤ Real.pi
    · rw [if_pos hφπ]
      rw [show r * Real.sin θ * Real.sin φ = (r * Real.sin θ) * Real.sin φ from by ring,
        show r * Real.sin θ * Real.cos φ = (r * Real.sin θ) * Real.cos φ from by ring]
      exact Viz.atan2_cos_sin (r * Real.sin θ) φ (by positivity) (by linarith) hφπ
    · rw [if_neg hφπ]
      push_neg at hφπ
      rw [show r * Real.sin θ * Real.sin φ =
            (r * Real.sin θ) * Real.sin (φ - 2 * Real.pi) from by
          rw [Real.sin_sub_two_pi],
        show r * Real.sin θ * Real.cos φ =
            (r * Real.sin θ) * Real.cos (φ - 2 * Real.pi) from by
          rw [Real.cos_sub_two_pi]]
      exact Viz.atan2_cos_sin (r * Real.sin θ) (φ - 2 * Real.pi) (by positivity)
        (by linarith) (by linarith)

/-- Counterexample for C8 as stated: the valid sample
(r, θ, φ) = (1, π/2, 3π/2) maps to (x, y, z) = (0, −1, 0), and the
recovery formula atan2(y, x) returns −π/2, which differs from the
original φ = 3π/2 by the non-negligible amount 2π. -/
theorem C8_roundtrip_counterexample :
    ((0 : ℝ) ≤ 1 ∧ (0 : ℝ) ≤ Real.pi / 2 ∧ Real.pi / 2 ≤ Real.pi ∧
      (0 : ℝ) ≤ 3 * Real.pi / 2 ∧ 3 * Real.pi / 2 < 2 * Real.pi) ∧
    Viz.recover_phi
        ((Viz.spherical_to_cartesian [1] [Real.pi / 2] [3 * Real.pi / 2]).1.getD 0 0)
        ((Viz.spherical_to_cartesian [1] [Real.pi / 2] [3 * Real.pi / 2]).2.1.getD 0 0) =
      -(Real.pi / 2) ∧
    |(-(Real.pi / 2)) - 3 * Real.pi / 2| = 2 * Real.pi ∧
    (2 : ℝ) < 2 * Real.pi := by
  have hπ := Real.pi_pos
  have hgt3 := Real.pi_gt_three
  have hx : (1 : ℝ) * Real.sin (Real.pi / 2) * Real.cos (3 * Real.pi / 2) = 0 := by
    rw [show (3 : ℝ) * Real.pi / 2 = Real.pi + Real.pi / 2 from by ring,
      Real.cos_add, Real.cos_pi, Real.sin_pi, Real.cos_pi_div_two]
    ring
  have hy : (1 : ℝ) * Real.sin (Real.pi / 2) * Real.sin (3 * Real.pi / 2) = -1 := by
    rw [show (3 : ℝ) * Real.pi / 2 = Real.pi + Real.pi / 2 from by ring,
      Real.sin_add, Real.cos_pi, Real.sin_pi, Real.sin_pi_div_two]
    ring
  refine ⟨⟨by norm_num, by linarith, by linarith, by linarith, by linarith⟩, ?_, ?_, ?_⟩
  · rw [Viz.s2c_single]
    simp only [List.getD_cons_zero]
    rw [hx, hy, Viz.recover_phi, Viz.atan2,
      show Complex.mk 0 (-1) = -Complex.I from by
        apply Complex.ext <;> simp]
    exact Complex.arg_neg_I
  · rw [show -(Real.pi / 2) - 3 * Real.pi / 2 = -(2 * Real.pi) from by ring, abs_neg,
      abs_of_pos (by linarith)]
  · linarith

/-- Witness for C8 (amended) at (r, θ, φ) = (1, π/2, π/2). -/
theorem C8_roundtrip_amended_witness :
    ((0 : ℝ) < 1 ∧ (0 : ℝ) < Real.pi / 2 ∧ Real.pi / 2 < Real.pi ∧
      (0 : ℝ) ≤ Real.pi / 2 ∧ Real.pi / 2 < 2 * Real.pi) ∧
    (Viz.recover_r
        ((Viz.spherical_to_cartesian [1] [Real.pi / 2] [Real.pi / 2]).1.getD 0 0)
        ((Viz.spherical_to_cartesian [1] [Real.pi / 2] [Real.pi / 2]).2.1.getD 0 0)
        ((Viz.spherical_to_cartesian [1] [Real.pi / 2] [Real.pi / 2]).2.2.getD 0 0) = 1 ∧
     Viz.recover_theta
        ((Viz.spherical_to_cartesian [1] [Real.pi / 2] [Real.pi / 2]).1.getD 0 0)
        ((Viz.spherical_to_cartesian [1] [Real.pi / 2] [Real.pi / 2]).2.1.getD 0 0)
        ((Viz.spherical_to_cartesian [1] [Real.pi / 2] [Real.pi / 2]).2.2.getD 0 0) =
          Real.pi / 2 ∧
     Viz.recover_phi
        ((Viz.spherical_to_cartesian [1] [Real.pi / 2] [Real.pi / 2]).1.getD 0 0)
        ((Viz.spherical_to_cartesian [1] [Real.pi / 2] [Real.pi / 2]).2.1.getD 0 0) =
          (if Real.pi / 2 ≤ Real.pi then Real.pi / 2 else Real.pi / 2 - 2 * Real.pi)) :=
  have hπ := Real.pi_pos
  ⟨⟨by norm_num, by linarith, by linarith, by linarith, by linarith⟩,
   C8_roundtrip_amended 1 (Real.pi / 2) (Real.pi / 2) (by norm_num) (by linarith)
     (by linarith) (by linarith) (by linarith)⟩

namespace Viz

theorem sin_15708_bounds :
    (0.999 : ℝ) ≤ Real.sin 1.5708 ∧ Real.sin 1.5708 ≤ 1 := by
  have hπl := Real.pi_gt_d6
  have hπu := Real.pi_lt_d6
  constructor
  · have hs : Real.sin 1.5708 = Real.cos (Real.pi / 2 - 1.5708) := by
      rw [Real.cos_pi_div_two_sub]
    have hcos := Real.one_sub_sq_div_two_le_cos (x := Real.pi / 2 - 1.5708)
    have hd1 : Real.pi / 2 - 1.5708 ≤ 0 := by linarith
    have hd2 : -0.000004 ≤ Real.pi / 2 - 1.5708 := by linarith
    have hsq : (Real.pi / 2 - 1.5708) ^ 2 ≤ 0.000004 ^ 2 := by nlinarith
    rw [hs]
    nlinarith
  · exact Real.sin_le_one 1.5708

theorem cos_15708_bounds :
    (-0.000004 : ℝ) ≤ Real.cos 1.5708 ∧ Real.cos 1.5708 ≤ 0 := by
  have hπl := Real.pi_gt_d6
  have hπu := Real.pi_lt_d6
  have hc : Real.cos 1.5708 = Real.sin (Real.pi / 2 - 1.5708) :=
    (Real.sin_pi_div_two_sub 1.5708).symm
  have hneg : Real.sin (Real.pi / 2 - 1.5708) =
      -Real.sin (1.5708 - Real.pi / 2) := by
    rw [show Real.pi / 2 - 1.5708 = -(1.5708 - Real.pi / 2) from by ring,
      Real.sin_neg]
  have hu1 : (0 : ℝ) < 1.5708 - Real.pi / 2 := by linarith
  have hu2 : 1.5708 - Real.pi / 2 ≤ 0.000004 := by linarith
  have hup := Real.sin_lt hu1
  have hlo : 0 ≤ Real.sin (1.5708 - Real.pi / 2) :=
    Real.sin_nonneg_of_nonneg_of_le_pi hu1.le (by linarith)
  constructor
  · rw [hc, hneg]; linarith
  · rw [hc, hneg]; linarith

end Viz

/-- Counterexample for C7 as stated: in the scenario table
`[[0,1,0,0],[1,2,1.5708,0]]` the second sample has φ = 0, so the
y-coordinate of the transform at index 1 is `2·sin(1.5708)·sin(0) = 0` exactly —
not approximately 2 as the claimed point1 = (2,2,0) requires. -/
theorem C7_scenario_counterexample :
    (Viz.spherical_to_cartesian
        (Viz.col [[(0 : ℝ), 1, 0, 0], [1, 2, 1.5708, 0]] 1)
        (Viz.col [[(0 : ℝ), 1, 0, 0], [1, 2, 1.5708, 0]] 2)
        (Viz.col [[(0 : ℝ), 1, 0, 0], [1, 2, 1.5708, 0]] 3)).2.1.getD 1 0 = 0 ∧
    ¬ |(0 : ℝ) - 2| < 1 := by
  constructor
  · simp [Viz.spherical_to_cartesian, Viz.col, List.zipWith3]
  · rw [abs_of_nonpos (by norm_num)]
    norm_num

/-- C7 (amended): for the input table `[[0,1,0,0],[1,2,1.5708,0]]` (N = 2)
the transform yields point0 = (0, 0, 1) exactly and point1 ≈ (2, 0, 0)
(φ = 0 forces y = 0; point1 = (2,2,0) of the spec contradicts its own
formula), the axis limit is within 0.01 of 2.1, and `main` exits with
code 0. -/
theorem C7_scenario_amended :
    Viz.main_outcome
        ⟨"traj.csv", true, ".csv", none, "geodesic_viewer.html", 800,
          none, none, none, none⟩
        ⟨[2, 4], [0, 1, 0, 0, 1, 2, 1.5708, 0]⟩ =
      Viz.Outcome.exit0 ("Wrote " ++ "geodesic_viewer.html") ∧
    (Viz.spherical_to_cartesian
        (Viz.col [[(0 : ℝ), 1, 0, 0], [1, 2, 1.5708, 0]] 1)
        (Viz.col [[(0 : ℝ), 1, 0, 0], [1, 2, 1.5708, 0]] 2)
        (Viz.col [[(0 : ℝ), 1, 0, 0], [1, 2, 1.5708, 0]] 3)).1 =
      [0, 2 * Real.sin 1.5708] ∧
    (Viz.spherical_to_cartesian
        (Viz.col [[(0 : ℝ), 1, 0, 0], [1, 2, 1.5708, 0]] 1)
        (Viz.col [[(0 : ℝ), 1, 0, 0], [1, 2, 1.5708, 0]] 2)
        (Viz.col [[(0 : ℝ), 1, 0, 0], [1, 2, 1.5708, 0]] 3)).2.1 = [0, 0] ∧
    (Viz.spherical_to_cartesian
        (Viz.col [[(0 : ℝ), 1, 0, 0], [1, 2, 1.5708, 0]] 1)
        (Viz.col [[(0 : ℝ), 1, 0, 0], [1, 2, 1.5708, 0]] 2)
        (Viz.col [[(0 : ℝ), 1, 0, 0], [1, 2, 1.5708, 0]] 3)).2.2 =
      [1, 2 * Real.cos 1.5708] ∧
    |2 * Real.sin 1.5708 - 2| < 1 / 100 ∧
    |2 * Real.cos 1.5708| < 1 / 100 ∧
    |Viz.limOf (Viz.rmaxOf [0, 2 * Real.sin 1.5708] [0, 0]
        [1, 2 * Real.cos 1.5708]) - 2.1| < 1 / 100 := by
  have hs := Viz.sin_15708_bounds
  have hc := Viz.cos_15708_bounds
  have hs2a : (1.998 : ℝ) ≤ 2 * Real.sin 1.5708 := by linarith [hs.1]
  have hs2b : 2 * Real.sin 1.5708 ≤ 2 := by linarith [hs.2]
  have hzb : |2 * Real.cos 1.5708| ≤ 0.000008 := by
    rw [abs_le]
    constructor <;> linarith [hc.1, hc.2]
  refine ⟨?_, ?_, ?_, ?_, ?_, ?_, ?_⟩
  · have hload : Viz.load_trajectory ⟨[2, 4], [0, 1, 0, 0, 1, 2, 1.5708, 0]⟩ =
        Except.ok [[(0 : ℝ), 1, 0, 0], [1, 2, 1.5708, 0]] := by
      rw [Viz.load_trajectory,
        if_neg (by simp [Viz.NDArray.ndim, Viz.NDArray.ncols])]
      rfl
    rw [Viz.main_outcome]
    simp only [Bool.not_true, if_neg (by simp : ¬ ¬ (true : Bool) = true)]
    rw [show Viz.resolve_format
        ⟨"traj.csv", true, ".csv", none, "geodesic_viewer.html", 800,
          none, none, none, none⟩ = some "csv" from by decide]
    rw [hload]
    norm_num [Viz.spherical_to_cartesian, Viz.col, List.zipWith3]
  · simp [Viz.spherical_to_cartesian, Viz.col, List.zipWith3]
  · simp [Viz.spherical_to_cartesian, Viz.col, List.zipWith3]
  · simp [Viz.spherical_to_cartesian, Viz.col, List.zipWith3]
  · rw [abs_of_nonpos (by linarith)]
    linarith
  · linarith [hzb]
  · have hrmax : Viz.rmaxOf [0, 2 * Real.sin 1.5708] [0, 0]
        [1, 2 * Real.cos 1.5708] = 2 * Real.sin 1.5708 := by
      apply le_antisymm
      · apply Viz.npMax_le _ _ (by linarith)
        intro v hv
        simp only [List.map, List.cons_append, List.nil_append, List.mem_cons,
          List.not_mem_nil, or_false] at hv
        rcases hv with h | h | h | h | h | h <;> subst h
        · rw [abs_of_nonneg le_rfl]; linarith
        · rw [abs_of_nonneg (by linarith)]
        · rw [abs_of_nonneg le_rfl]; linarith
        · rw [abs_of_nonneg le_rfl]; linarith
        · rw [abs_of_nonneg (by norm_num)]; linarith
        · linarith [hzb, abs_nonneg (2 * Real.cos 1.5708)]
      · have hmem : |2 * Real.sin 1.5708| ∈
            (([0, 2 * Real.sin 1.5708] ++ [0, 0] ++
              [1, 2 * Real.cos 1.5708]).map (fun v => |v|)) := by
          simp
        have := Viz.mem_le_npMax _ _ hmem
        rw [abs_of_nonneg (by linarith)] at this
        exact this
    rw [hrmax, Viz.limOf, if_pos (by linarith)]
    rw [abs_lt]
    constructor <;> nlinarith
